import Mathlib

/-!
Verification development for the problem5 task CRUD service:
a shallow embedding of the Zod validators (task.validator.ts),
the task service (task.service.ts) over an abstract relational store,
the error translator middleware (errorHandler.ts) and the id gate of
the task controller (task.controller.ts), together with theorems
settling the behavioural claims about them.
-/

deriving instance DecidableEq for Except

namespace TaskApi

/-- The TaskStatus enum of the Prisma schema: pending, in_progress, completed. -/
inductive TaskStatus where
  | pending
  | in_progress
  | completed
deriving DecidableEq, Repr

/-- Decode an input string into a TaskStatus, mirroring
z.enum of pending, in_progress and completed. -/
def parseStatus (s : String) : Option TaskStatus :=
  if s = "pending" then some TaskStatus.pending
  else if s = "in_progress" then some TaskStatus.in_progress
  else if s = "completed" then some TaskStatus.completed
  else none

/-- A stored Task row: id, title, nullable description, status and the
two timestamps (modelled as abstract Nat instants). -/
structure Task where
  id : Int
  title : String
  description : Option String
  status : TaskStatus
  createdAt : Nat
  updatedAt : Nat
deriving DecidableEq, Repr

/-- Output type of createTaskSchema: title required, description optional,
status always populated (defaulted to pending). -/
structure CreateTaskInput where
  title : String
  description : Option String
  status : TaskStatus
deriving DecidableEq, Repr

/-- Output type of updateTaskSchema: all three fields optional. -/
structure UpdateTaskInput where
  title : Option String
  description : Option String
  status : Option TaskStatus
deriving DecidableEq, Repr

/-- Output type of listTasksQuerySchema: status and search optional,
limit and offset always populated integers. -/
structure ListTasksQuery where
  status : Option TaskStatus
  search : Option String
  limit : Nat
  offset : Nat
deriving DecidableEq, Repr

/-- Raw JSON body for the create endpoint: each recognized key either
absent or a string (unrecognized keys are stripped by z.object). -/
structure CreateTaskRaw where
  title : Option String
  description : Option String
  status : Option String
deriving DecidableEq, Repr

/-- Raw JSON body for the update endpoint. -/
structure UpdateTaskRaw where
  title : Option String
  description : Option String
  status : Option String
deriving DecidableEq, Repr

/-- Raw query-string parameters for the list endpoint: every value an
optional string, as Express delivers them. -/
structure ListTasksRaw where
  status : Option String
  search : Option String
  limit : Option String
  offset : Option String
deriving DecidableEq, Repr

/-- One field-level validation issue: the dot-joined path and a message. -/
structure FieldError where
  field : String
  message : String
deriving DecidableEq, Repr

/-- Boolean test that pat is a prefix of s (character lists). -/
def hasPrefB : List Char → List Char → Bool
  | _, [] => true
  | [], _ :: _ => false
  | a :: as, b :: bs => (a == b) && hasPrefB as bs

/-- Boolean test that pat occurs as a contiguous run inside s. -/
def hasSubB : List Char → List Char → Bool
  | [], p => p.isEmpty
  | a :: rest, p => hasPrefB (a :: rest) p || hasSubB rest p

/-- Case-sensitive substring containment on strings, the semantics of
the Prisma contains operator on a SQLite text column. -/
def strContainsB (s pat : String) : Bool :=
  hasSubB s.toList pat.toList

/-- Whitespace recognised by the JavaScript parseInt leading trim. -/
def isJsWs (c : Char) : Bool :=
  c == ' ' || c == '\t' || c == '\n' || c == '\r' || c == '\x0b' || c == '\x0c'

/-- Read the maximal leading run of decimal digits; none when empty
(the NaN outcome of parseInt). -/
def readDigits (cs : List Char) : Option Nat :=
  let ds := cs.takeWhile Char.isDigit
  if ds.isEmpty then none
  else some (ds.foldl (fun a c => a * 10 + (c.toNat - 48)) 0)

/-- JavaScript parseInt(s, 10): trim leading whitespace, optional sign,
parse the maximal run of leading digits, NaN (none) when there is none.
Trailing non-digit characters are ignored. -/
def parseIntJs (s : String) : Option Int :=
  match s.toList.dropWhile isJsWs with
  | '-' :: rest => (readDigits rest).map (fun n => -(n : Int))
  | '+' :: rest => (readDigits rest).map (fun n => (n : Int))
  | cs => (readDigits cs).map (fun n => (n : Int))

/-- A string that is literally a decimal integer numeral: an optional
sign followed by one or more digits and nothing else. -/
def isIntegerNumeral (s : String) : Bool :=
  match s.toList with
  | '-' :: rest => !rest.isEmpty && rest.all Char.isDigit
  | '+' :: rest => !rest.isEmpty && rest.all Char.isDigit
  | cs => !cs.isEmpty && cs.all Char.isDigit

/-- Issues raised by the optional status enum field: empty when absent
or a canonical enum value, one issue at path status otherwise. -/
def statusErrors : Option String → List FieldError
  | none => []
  | some s =>
    if (parseStatus s).isSome then [] else [⟨"status", "Invalid enum value"⟩]

/-- Issues raised by the create-schema title string checks,
z.string().min(1).max(200) with the custom messages. -/
def lenErrorsCreate (t : String) : List FieldError :=
  (if t.length < 1 then [⟨"title", "Title is required"⟩] else [])
    ++ (if 200 < t.length then [⟨"title", "Title too long"⟩] else [])

/-- createTaskSchema.parse: title is a required string of length 1..200,
description optional, status an optional enum defaulted to pending.
All field issues are collected in one pass. -/
def validateCreate (r : CreateTaskRaw) : Except (List FieldError) CreateTaskInput :=
  match r.title with
  | none => Except.error ([⟨"title", "Required"⟩] ++ statusErrors r.status)
  | some t =>
    if lenErrorsCreate t ++ statusErrors r.status = [] then
      Except.ok ⟨t, r.description, (r.status.bind parseStatus).getD TaskStatus.pending⟩
    else Except.error (lenErrorsCreate t ++ statusErrors r.status)

/-- The dedicated cross-field message of updateTaskSchema.refine. -/
def atLeastOneMsg : String := "At least one field must be provided for update"

/-- Field-level issues of the update schema: optional title string of
length 1..200 with its own messages, optional status enum. -/
def updFieldErrors (r : UpdateTaskRaw) : List FieldError :=
  (match r.title with
   | none => []
   | some t =>
     (if t.length < 1 then [⟨"title", "Title cannot be empty"⟩] else [])
       ++ (if 200 < t.length then [⟨"title", "Title too long"⟩] else []))
    ++ statusErrors r.status

/-- updateTaskSchema.parse: the refine over Object.keys runs only when
the base object parse succeeded, and fails exactly when no recognized
key is present; its issue carries the empty path. -/
def validateUpdate (r : UpdateTaskRaw) : Except (List FieldError) UpdateTaskInput :=
  if updFieldErrors r = [] then
    if r.title.isNone && r.description.isNone && r.status.isNone then
      Except.error [⟨"", atLeastOneMsg⟩]
    else Except.ok ⟨r.title, r.description, r.status.bind parseStatus⟩
  else Except.error (updFieldErrors r)

/-- The transformed limit value: absent or empty string is falsy in the
JavaScript conditional and yields the default 10, any other string goes
through parseInt (none = NaN). -/
def limitVal : Option String → Option Int
  | none => some 10
  | some v => if v = "" then some 10 else parseIntJs v

/-- The transformed offset value: absent or empty string yields 0,
any other string goes through parseInt. -/
def offsetVal : Option String → Option Int
  | none => some 0
  | some v => if v = "" then some 0 else parseIntJs v

/-- The limit refinement val > 0 and val <= 100; NaN compares false. -/
def limitErrors (v : Option Int) : List FieldError :=
  match v with
  | some n => if 0 < n ∧ n ≤ 100 then [] else [⟨"limit", "Limit must be between 1 and 100"⟩]
  | none => [⟨"limit", "Limit must be between 1 and 100"⟩]

/-- The offset refinement val >= 0; NaN compares false. -/
def offsetErrors (v : Option Int) : List FieldError :=
  match v with
  | some n => if 0 ≤ n then [] else [⟨"offset", "Offset must be non-negative"⟩]
  | none => [⟨"offset", "Offset must be non-negative"⟩]

/-- listTasksQuerySchema.parse: optional status enum, optional search
string, limit and offset strings transformed then refined, all issues
collected in one pass. -/
def validateListQuery (r : ListTasksRaw) : Except (List FieldError) ListTasksQuery :=
  if statusErrors r.status ++ limitErrors (limitVal r.limit)
      ++ offsetErrors (offsetVal r.offset) = [] then
    Except.ok ⟨r.status.bind parseStatus, r.search,
      ((limitVal r.limit).getD 0).toNat, ((offsetVal r.offset).getD 0).toNat⟩
  else Except.error (statusErrors r.status ++ limitErrors (limitVal r.limit)
    ++ offsetErrors (offsetVal r.offset))

/-- The relational store behind Prisma: the task table plus the
autoincrement counter for the next id. -/
structure Store where
  tasks : List Task
  nextId : Int
deriving DecidableEq, Repr

/-- An error raised by a known persistence request failure,
identified by its Prisma code such as P2025 or P2002. -/
structure PrismaError where
  code : String
deriving DecidableEq, Repr

/-- TaskService.createTask: a single INSERT; the row gets the
autoincrement id, the input fields and both timestamps set to now. -/
def createTask (d : CreateTaskInput) (now : Nat) (st : Store) : Task × Store :=
  let t : Task := ⟨st.nextId, d.title, d.description, d.status, now, now⟩
  (t, ⟨st.tasks ++ [t], st.nextId + 1⟩)

/-- TaskService.getTaskById: findUnique by primary key, null when no
row matches, never an error. -/
def getTaskById (id : Int) (st : Store) : Option Task :=
  st.tasks.find? (fun t => t.id == id)

/-- Apply an update payload to a row: only present fields overwrite,
updatedAt is refreshed. -/
def applyUpdate (d : UpdateTaskInput) (now : Nat) (t : Task) : Task :=
  { t with
    title := d.title.getD t.title
    description := match d.description with
      | none => t.description
      | some s => some s
    status := d.status.getD t.status
    updatedAt := now }

/-- TaskService.updateTask: prisma.task.update raises P2025 when the id
matches no row, otherwise rewrites the row in place. -/
def updateTask (id : Int) (d : UpdateTaskInput) (now : Nat) (st : Store) :
    Except PrismaError (Task × Store) :=
  match st.tasks.find? (fun t => t.id == id) with
  | none => Except.error ⟨"P2025"⟩
  | some t =>
    let t2 := applyUpdate d now t
    Except.ok (t2, ⟨st.tasks.map (fun u => if u.id == id then t2 else u), st.nextId⟩)

/-- TaskService.deleteTask: prisma.task.delete raises P2025 when the id
matches no row, otherwise removes the row and returns it. -/
def deleteTask (id : Int) (st : Store) : Except PrismaError (Task × Store) :=
  match st.tasks.find? (fun t => t.id == id) with
  | none => Except.error ⟨"P2025"⟩
  | some t => Except.ok (t, ⟨st.tasks.filter (fun u => !(u.id == id)), st.nextId⟩)

/-- The where clause built by TaskService.listTasks, as a predicate on a
row: the status key requires an exact match when the status filter is a
truthy (present) value; the OR key requires the search term to be
contained in title or in description when the search filter is truthy
(present and non-empty); contains never matches a NULL description. -/
def taskMatches (q : ListTasksQuery) (t : Task) : Bool :=
  (match q.status with
   | none => true
   | some s => t.status == s) &&
  (match q.search with
   | none => true
   | some s =>
     if s = "" then true
     else
       strContainsB t.title s ||
         (match t.description with
          | none => false
          | some d => strContainsB d s))

/-- Insert a task into a list kept in descending createdAt order. -/
def insertByCreatedDesc (t : Task) : List Task → List Task
  | [] => [t]
  | u :: us =>
    if u.createdAt ≤ t.createdAt then t :: u :: us
    else u :: insertByCreatedDesc t us

/-- Sort rows by createdAt descending, the orderBy of listTasks. -/
def sortByCreatedDesc : List Task → List Task
  | [] => []
  | t :: ts => insertByCreatedDesc t (sortByCreatedDesc ts)

/-- The pagination block returned by listTasks. -/
structure Pagination where
  total : Nat
  limit : Nat
  offset : Nat
  hasMore : Bool
deriving DecidableEq, Repr

/-- The full result of listTasks. -/
structure ListTasksResult where
  data : List Task
  pagination : Pagination
deriving DecidableEq, Repr

/-- TaskService.listTasks: findMany with the where clause, orderBy
createdAt desc, skip offset, take limit, in parallel with count over
the same where clause; hasMore is offset + limit < total. -/
def listTasks (q : ListTasksQuery) (st : Store) : ListTasksResult :=
  let matched := st.tasks.filter (taskMatches q)
  let page := ((sortByCreatedDesc matched).drop q.offset).take q.limit
  ⟨page, ⟨matched.length, q.limit, q.offset,
    decide (q.offset + q.limit < matched.length)⟩⟩

/-- One issue inside a ZodError: its path and message. -/
structure ZodIssue where
  path : List String
  message : String
deriving DecidableEq, Repr

/-- The errors reaching the errorHandler middleware: a ZodError with its
issues, a PrismaClientKnownRequestError with its code and message, or
any other Error with its message. -/
inductive AppError where
  | zodError (issues : List ZodIssue)
  | prismaKnownError (code : String) (message : String)
  | otherError (message : String)
deriving DecidableEq, Repr

/-- A JSON response body: success flag, error string, optional details
array and optional message (absent keys modelled as none). -/
structure ResponseBody where
  success : Bool
  error : String
  details : Option (List FieldError)
  message : Option String
deriving DecidableEq, Repr

/-- An HTTP response: status code and JSON body. -/
structure HttpResponse where
  status : Nat
  body : ResponseBody
deriving DecidableEq, Repr

/-- Array.prototype.join with a dot, used on a Zod issue path. -/
def joinDot : List String → String
  | [] => ""
  | [p] => p
  | p :: q :: ps => p ++ "." ++ joinDot (q :: ps)

/-- errorHandler: ZodError first to 400 with per-field details, then
known Prisma errors P2025 to 404 and P2002 to 409, everything else
falls through to 500 whose message key is populated only in
development mode. -/
def errorHandler (e : AppError) (isDev : Bool) : HttpResponse :=
  match e with
  | AppError.zodError issues =>
    ⟨400, ⟨false, "Validation error",
      some (issues.map (fun i => ⟨joinDot i.path, i.message⟩)), none⟩⟩
  | AppError.prismaKnownError code msg =>
    if code = "P2025" then ⟨404, ⟨false, "Resource not found", none, none⟩⟩
    else if code = "P2002" then ⟨409, ⟨false, "Resource already exists", none, none⟩⟩
    else ⟨500, ⟨false, "Internal server error", none,
      if isDev then some msg else none⟩⟩
  | AppError.otherError msg =>
    ⟨500, ⟨false, "Internal server error", none,
      if isDev then some msg else none⟩⟩

/-- Outcome of the id-parsing prologue shared by the getById, update and
delete controller actions: either an early response without any service
call, or the parsed id handed to the Task Service. -/
inductive GateResult where
  | earlyResponse (resp : HttpResponse)
  | proceed (id : Int)
deriving DecidableEq, Repr

/-- The 400 body sent when parseInt on the id parameter returned NaN. -/
def invalidIdResponse : HttpResponse :=
  ⟨400, ⟨false, "Invalid task ID", none, none⟩⟩

/-- TaskController.getById, lines parsing the id: parseInt then isNaN. -/
def getByIdGate (idParam : String) : GateResult :=
  match parseIntJs idParam with
  | none => GateResult.earlyResponse invalidIdResponse
  | some n => GateResult.proceed n

/-- TaskController.update, lines parsing the id: parseInt then isNaN. -/
def updateGate (idParam : String) : GateResult :=
  match parseIntJs idParam with
  | none => GateResult.earlyResponse invalidIdResponse
  | some n => GateResult.proceed n

/-- TaskController.delete, lines parsing the id: parseInt then isNaN. -/
def deleteGate (idParam : String) : GateResult :=
  match parseIntJs idParam with
  | none => GateResult.earlyResponse invalidIdResponse
  | some n => GateResult.proceed n

/-! ### Helper lemmas -/

/-- The empty pattern is contained in every character list. -/
theorem hasSubB_nil (cs : List Char) : hasSubB cs [] = true := by
  cases cs with
  | nil => rfl
  | cons a rest => simp [hasSubB, hasPrefB]

/-- The empty search term is contained in every string. -/
theorem strContainsB_empty (s : String) : strContainsB s "" = true := by
  unfold strContainsB
  have h : ("" : String).toList = [] := rfl
  rw [h]
  exact hasSubB_nil _

/-- find? over a list extended on the right finds the new element when
nothing in the prefix satisfies the predicate. -/
theorem find?_concat_of_none {α : Type} (p : α → Bool) (l : List α) (x : α)
    (h : ∀ a ∈ l, p a = false) (hx : p x = true) :
    (l ++ [x]).find? p = some x := by
  induction l with
  | nil => simp [List.find?, hx]
  | cons a as ih =>
    have ha : p a = false := h a (by simp)
    simp only [List.cons_append, List.find?, ha]
    exact ih (fun b hb => h b (by simp [hb]))

/-! ### Claim theorems -/

/-- Claim C1: for every valid ListTasksQuery (limit in 1..100, offset
nonnegative) and every stored collection of tasks, listTasks returns at
most limit items, pagination.total is the count of all tasks matching
the filter unbounded by pagination, and pagination.hasMore is true
exactly when offset + limit < total. -/
theorem listTasks_page_bound_and_hasMore (q : ListTasksQuery) (st : Store)
    (h1 : 1 ≤ q.limit) (h2 : q.limit ≤ 100) :
    (listTasks q st).data.length ≤ q.limit ∧
    (listTasks q st).pagination.total = (st.tasks.filter (taskMatches q)).length ∧
    ((listTasks q st).pagination.hasMore = true ↔
      q.offset + q.limit < (st.tasks.filter (taskMatches q)).length) := by
  refine ⟨?_, rfl, ?_⟩
  · simp [listTasks]
  · simp [listTasks]

/-- Witness discharging the hypotheses of the C1 theorem at a concrete
query and store. -/
theorem listTasks_page_bound_and_hasMore_witness :
    (listTasks ⟨none, none, 10, 0⟩ ⟨[], 1⟩).data.length ≤ 10 ∧
    (listTasks ⟨none, none, 10, 0⟩ ⟨[], 1⟩).pagination.total
      = ((⟨[], 1⟩ : Store).tasks.filter (taskMatches ⟨none, none, 10, 0⟩)).length ∧
    ((listTasks ⟨none, none, 10, 0⟩ ⟨[], 1⟩).pagination.hasMore = true ↔
      0 + 10 < ((⟨[], 1⟩ : Store).tasks.filter (taskMatches ⟨none, none, 10, 0⟩)).length) :=
  listTasks_page_bound_and_hasMore ⟨none, none, 10, 0⟩ ⟨[], 1⟩ (by decide) (by decide)

/-- The filter predicate as the specification states it: a present
status must match exactly, a present search term must be a
case-sensitive substring of the title or of the description, both
conditions combined conjunctively, and an empty filter admits all. -/
def specMatches (q : ListTasksQuery) (t : Task) : Prop :=
  (match q.status with
   | none => True
   | some s => t.status = s) ∧
  (match q.search with
   | none => True
   | some s =>
     strContainsB t.title s = true ∨
       ∃ d, t.description = some d ∧ strContainsB d s = true)

/-- Claim C2: the where clause built by listTasks admits exactly the
tasks admitted by the specification predicate: exact status match when
a status filter is present, substring of title or description when a
search term is present, combined with logical AND, and everything
matches when neither is present. -/
theorem taskMatches_iff_specMatches (q : ListTasksQuery) (t : Task) :
    taskMatches q t = true ↔ specMatches q t := by
  unfold taskMatches specMatches
  rw [Bool.and_eq_true]
  apply and_congr
  · cases q.status <;> simp
  · cases hs : q.search with
    | none => simp
    | some s =>
      dsimp only
      by_cases he : s = ""
      · subst he
        simp [strContainsB_empty]
      · rw [if_neg he, Bool.or_eq_true]
        apply or_congr
        · simp
        · cases hd : t.description <;> simp

/-- Claim C10: with a search term present, a stored task whose
description is absent can pass the filter only through the title
branch: the filter forces the search term to be a substring of the
title. -/
theorem null_description_search (q : ListTasksQuery) (t : Task) (s : String)
    (hs : q.search = some s) (hd : t.description = none)
    (hm : taskMatches q t = true) :
    strContainsB t.title s = true := by
  unfold taskMatches at hm
  rw [hs, hd, Bool.and_eq_true] at hm
  rcases hm with ⟨-, h2⟩
  dsimp only at h2
  by_cases he : s = ""
  · subst he
    exact strContainsB_empty _
  · rw [if_neg he, Bool.or_eq_true] at h2
    rcases h2 with h2 | h2
    · exact h2
    · simp at h2

/-- Witness discharging the hypotheses of the C10 theorem at a concrete
query and task. -/
theorem null_description_search_witness :
    strContainsB "abc" "a" = true :=
  null_description_search ⟨none, some "a", 10, 0⟩
    ⟨1, "abc", none, TaskStatus.pending, 0, 0⟩ "a" rfl rfl (by decide)

/-- Claim C7: on an id that identifies no stored task, getTaskById
returns none without raising any error while updateTask and deleteTask
both fail with the Prisma P2025 RecordNotFound error. -/
theorem notFound_distinction (id : Int) (d : UpdateTaskInput) (now : Nat)
    (st : Store) (h : ∀ t ∈ st.tasks, t.id ≠ id) :
    getTaskById id st = none ∧
    updateTask id d now st = Except.error ⟨"P2025"⟩ ∧
    deleteTask id st = Except.error ⟨"P2025"⟩ := by
  have hf : st.tasks.find? (fun t => t.id == id) = none := by
    rw [List.find?_eq_none]
    intro t ht
    simpa using h t ht
  refine ⟨hf, ?_, ?_⟩
  · unfold updateTask
    rw [hf]
  · unfold deleteTask
    rw [hf]

/-- Witness discharging the hypothesis of the C7 theorem on the empty
store. -/
theorem notFound_distinction_witness :
    getTaskById 5 ⟨[], 1⟩ = none ∧
    updateTask 5 ⟨some "x", none, none⟩ 0 ⟨[], 1⟩ = Except.error ⟨"P2025"⟩ ∧
    deleteTask 5 ⟨[], 1⟩ = Except.error ⟨"P2025"⟩ :=
  notFound_distinction 5 ⟨some "x", none, none⟩ 0 ⟨[], 1⟩ (by simp)

/-- The create-schema title checks pass exactly on lengths 1..200. -/
theorem lenErrorsCreate_eq_nil (t : String) :
    lenErrorsCreate t = [] ↔ (1 ≤ t.length ∧ t.length ≤ 200) := by
  unfold lenErrorsCreate
  split_ifs with h1 h2 <;> simp <;> omega

/-- A failing create-schema title check reports the title field. -/
theorem lenErrorsCreate_has_title (t : String)
    (h : ¬(1 ≤ t.length ∧ t.length ≤ 200)) :
    ∃ fe, fe ∈ lenErrorsCreate t ∧ fe.field = "title" := by
  by_cases h1 : t.length < 1
  · exact ⟨⟨"title", "Title is required"⟩, by simp [lenErrorsCreate, h1], rfl⟩
  · have h2 : 200 < t.length := by omega
    exact ⟨⟨"title", "Title too long"⟩, by simp [lenErrorsCreate, h2], rfl⟩

/-- The status enum check passes exactly on absent or decodable values. -/
theorem statusErrors_eq_nil (o : Option String) :
    statusErrors o = [] ↔ ∀ s, o = some s → (parseStatus s).isSome = true := by
  cases o with
  | none => simp [statusErrors]
  | some s =>
    simp only [statusErrors]
    split_ifs with h <;> simp_all

/-- A failing status enum check reports the status field. -/
theorem statusErrors_invalid (o : Option String) (s : String)
    (ho : o = some s) (hp : parseStatus s = none) :
    statusErrors o = [⟨"status", "Invalid enum value"⟩] := by
  subst ho
  simp [statusErrors, hp]

/-- The status strings the enum decodes are exactly the three canonical
values. -/
theorem parseStatus_isSome_iff (s : String) :
    (parseStatus s).isSome = true ↔
      (s = "pending" ∨ s = "in_progress" ∨ s = "completed") := by
  unfold parseStatus
  split_ifs with h1 h2 h3 <;> simp_all

/-- Validity of a raw create payload as the specification states it:
title a string of length 1..200, status when present one of the three
canonical enum values. -/
def createInputValid (r : CreateTaskRaw) : Prop :=
  (∃ t, r.title = some t ∧ 1 ≤ t.length ∧ t.length ≤ 200) ∧
  ∀ s, r.status = some s → (s = "pending" ∨ s = "in_progress" ∨ s = "completed")

/-- Claim C3: createTaskSchema validation succeeds exactly when the
title is a string of length 1..200 and the status, when present, is a
canonical enum value; on success the status is populated, defaulting to
pending when absent; on failure the issue list names every violated
field, both title and status when both are wrong. -/
theorem createTaskSchema_spec (r : CreateTaskRaw) :
    ((∃ d, validateCreate r = Except.ok d) ↔ createInputValid r) ∧
    (∀ d, validateCreate r = Except.ok d →
      r.description = d.description ∧
      (r.status = none → d.status = TaskStatus.pending) ∧
      ∀ s, r.status = some s → parseStatus s = some d.status) ∧
    (∀ es, validateCreate r = Except.error es →
      ((¬ ∃ t, r.title = some t ∧ 1 ≤ t.length ∧ t.length ≤ 200) →
        ∃ fe, fe ∈ es ∧ fe.field = "title") ∧
      ((∃ s, r.status = some s ∧ parseStatus s = none) →
        ∃ fe, fe ∈ es ∧ fe.field = "status")) := by
  unfold validateCreate
  cases ht : r.title with
  | none =>
    dsimp only
    refine ⟨by simp [createInputValid, ht], by simp, ?_⟩
    intro es hes
    rw [Except.error.injEq] at hes
    subst hes
    constructor
    · intro _
      exact ⟨⟨"title", "Required"⟩, by simp, rfl⟩
    · rintro ⟨s, hs, hp⟩
      rw [statusErrors_invalid r.status s hs hp]
      exact ⟨⟨"status", "Invalid enum value"⟩, by simp, rfl⟩
  | some t =>
    dsimp only
    by_cases hnil : lenErrorsCreate t ++ statusErrors r.status = []
    · rw [if_pos hnil]
      rw [List.append_eq_nil] at hnil
      have hlen := (lenErrorsCreate_eq_nil t).mp hnil.1
      have hst := (statusErrors_eq_nil r.status).mp hnil.2
      refine ⟨?_, ?_, by simp⟩
      · simp only [Except.ok.injEq, exists_eq']
        constructor
        · intro _
          unfold createInputValid
          exact ⟨⟨t, by simp [ht], hlen⟩,
            fun s hs => (parseStatus_isSome_iff s).mp (hst s hs)⟩
        · intro _
          trivial
      · intro d hd
        rw [Except.ok.injEq] at hd
        subst hd
        refine ⟨rfl, ?_, ?_⟩
        · intro h0
          simp [h0]
        · intro s hs
          rcases Option.isSome_iff_exists.mp (hst s hs) with ⟨v, hv⟩
          simp [hs, hv]
    · rw [if_neg hnil]
      refine ⟨?_, by simp, ?_⟩
      · have hno : ¬ createInputValid r := by
          unfold createInputValid
          rintro ⟨⟨t', ht', hlen'⟩, hst'⟩
          rw [ht, Option.some.injEq] at ht'
          subst ht'
          apply hnil
          rw [List.append_eq_nil]
          refine ⟨(lenErrorsCreate_eq_nil _).mpr hlen', ?_⟩
          rw [statusErrors_eq_nil]
          intro s hs
          exact (parseStatus_isSome_iff s).mpr (hst' s hs)
        simp [hno]
      · intro es hes
        rw [Except.error.injEq] at hes
        subst hes
        constructor
        · intro hbad
          have hb : ¬(1 ≤ t.length ∧ t.length ≤ 200) := by
            intro hc
            exact hbad ⟨t, rfl, hc⟩
          rcases lenErrorsCreate_has_title t hb with ⟨fe, hfe, hf⟩
          exact ⟨fe, List.mem_append_left _ hfe, hf⟩
        · rintro ⟨s, hs, hp⟩
          rw [statusErrors_invalid r.status s hs hp]
          exact ⟨⟨"status", "Invalid enum value"⟩, by simp, rfl⟩

/-- Every issue produced by the status enum check carries the enum
message. -/
theorem statusErrors_msgs (o : Option String) (fe : FieldError)
    (h : fe ∈ statusErrors o) : fe.message = "Invalid enum value" := by
  cases o with
  | none => simp [statusErrors] at h
  | some s =>
    simp only [statusErrors] at h
    split_ifs at h
    · simp at h
    · simp at h
      rw [h]

/-- The update-schema field checks pass exactly when a present title
has length 1..200 and a present status is decodable. -/
theorem updFieldErrors_eq_nil (r : UpdateTaskRaw) :
    updFieldErrors r = [] ↔
      ((∀ t, r.title = some t → 1 ≤ t.length ∧ t.length ≤ 200) ∧
       ∀ s, r.status = some s → (parseStatus s).isSome = true) := by
  unfold updFieldErrors
  rw [List.append_eq_nil, statusErrors_eq_nil]
  apply and_congr _ Iff.rfl
  cases ho : r.title with
  | none => simp
  | some t =>
    dsimp only
    split_ifs with h1 h2 <;> simp <;> omega

/-- No field-level issue of the update schema carries the dedicated
cross-field message. -/
theorem updFieldErrors_msg_ne (r : UpdateTaskRaw) (fe : FieldError)
    (h : fe ∈ updFieldErrors r) : fe.message ≠ atLeastOneMsg := by
  unfold updFieldErrors at h
  rw [List.mem_append] at h
  rcases h with h | h
  · cases ho : r.title with
    | none =>
      rw [ho] at h
      simp at h
    | some t =>
      rw [ho] at h
      dsimp only at h
      rw [List.mem_append] at h
      rcases h with h | h <;> split_ifs at h <;> simp at h <;> subst h <;> decide
  · rw [statusErrors_msgs r.status fe h]
    decide

/-- Claim C4: updateTaskSchema fails with the dedicated at-least-one
error exactly when the input has zero recognized fields; any input with
at least one recognized field whose own constraints hold succeeds; and
on success absent fields remain absent, with no defaults applied. -/
theorem updateTaskSchema_spec (r : UpdateTaskRaw) :
    ((∃ es, validateUpdate r = Except.error es ∧
        ∃ fe, fe ∈ es ∧ fe.message = atLeastOneMsg) ↔
      (r.title = none ∧ r.description = none ∧ r.status = none)) ∧
    ((r.title ≠ none ∨ r.description ≠ none ∨ r.status ≠ none) →
      (∀ t, r.title = some t → 1 ≤ t.length ∧ t.length ≤ 200) →
      (∀ s, r.status = some s →
        (s = "pending" ∨ s = "in_progress" ∨ s = "completed")) →
      ∃ d, validateUpdate r = Except.ok d) ∧
    (∀ d, validateUpdate r = Except.ok d →
      d.title = r.title ∧ d.description = r.description ∧
        (d.status = none ↔ r.status = none)) := by
  refine ⟨⟨?_, ?_⟩, ?_, ?_⟩
  · rintro ⟨es, hes, fe, hfe, hmsg⟩
    unfold validateUpdate at hes
    by_cases hnil : updFieldErrors r = []
    · rw [if_pos hnil] at hes
      by_cases hall : (r.title.isNone && r.description.isNone && r.status.isNone) = true
      · simpa [Option.isNone_iff_eq_none, and_assoc] using hall
      · rw [Bool.not_eq_true] at hall
        rw [hall] at hes
        simp at hes
    · rw [if_neg hnil] at hes
      rw [Except.error.injEq] at hes
      subst hes
      exact absurd hmsg (updFieldErrors_msg_ne r fe hfe)
  · rintro ⟨h1, h2, h3⟩
    have hnil : updFieldErrors r = [] := by
      rw [updFieldErrors_eq_nil]
      constructor
      · intro t htt
        rw [h1] at htt
        simp at htt
      · intro s hss
        rw [h3] at hss
        simp at hss
    refine ⟨[⟨"", atLeastOneMsg⟩], ?_, ⟨"", atLeastOneMsg⟩, by simp, rfl⟩
    unfold validateUpdate
    rw [if_pos hnil, if_pos (by simp [h1, h2, h3])]
  · intro hone hT hS
    have hnil : updFieldErrors r = [] := by
      rw [updFieldErrors_eq_nil]
      exact ⟨hT, fun s hs => (parseStatus_isSome_iff s).mpr (hS s hs)⟩
    have hcond : (r.title.isNone && r.description.isNone && r.status.isNone) = false := by
      rcases hone with h | h | h <;>
        simp [Option.isNone_iff_eq_none, Option.isSome_iff_ne_none, h]
    refine ⟨⟨r.title, r.description, r.status.bind parseStatus⟩, ?_⟩
    unfold validateUpdate
    rw [if_pos hnil, if_neg (by rw [hcond]; exact Bool.false_ne_true)]
  · intro d hd
    unfold validateUpdate at hd
    by_cases hnil : updFieldErrors r = []
    · rw [if_pos hnil] at hd
      split_ifs at hd
      rw [Except.ok.injEq] at hd
      subst hd
      refine ⟨rfl, rfl, ?_⟩
      cases hs : r.status with
      | none => simp
      | some s =>
        have := ((updFieldErrors_eq_nil r).mp hnil).2 s hs
        rcases Option.isSome_iff_exists.mp this with ⟨v, hv⟩
        simp [hs, hv]
    · rw [if_neg hnil] at hd
      simp at hd

/-- The limit refinement passes exactly on integers 1..100. -/
theorem limitErrors_eq_nil (v : Option Int) :
    limitErrors v = [] ↔ ∃ n, v = some n ∧ 0 < n ∧ n ≤ 100 := by
  cases v with
  | none => simp [limitErrors]
  | some n =>
    simp only [limitErrors]
    split_ifs with h <;> simp [h]

/-- The offset refinement passes exactly on nonnegative integers. -/
theorem offsetErrors_eq_nil (v : Option Int) :
    offsetErrors v = [] ↔ ∃ n, v = some n ∧ 0 ≤ n := by
  cases v with
  | none => simp [offsetErrors]
  | some n =>
    simp only [offsetErrors]
    split_ifs with h <;> simp [h]

/-- A failing limit refinement reports the limit field. -/
theorem limitErrors_nonpass (v : Option Int)
    (h : ¬ ∃ n, v = some n ∧ 0 < n ∧ n ≤ 100) :
    limitErrors v = [⟨"limit", "Limit must be between 1 and 100"⟩] := by
  cases v with
  | none => rfl
  | some n =>
    simp only [limitErrors]
    rw [if_neg]
    intro hc
    exact h ⟨n, rfl, hc⟩

/-- A failing offset refinement reports the offset field. -/
theorem offsetErrors_nonpass (v : Option Int)
    (h : ¬ ∃ n, v = some n ∧ 0 ≤ n) :
    offsetErrors v = [⟨"offset", "Offset must be non-negative"⟩] := by
  cases v with
  | none => rfl
  | some n =>
    simp only [offsetErrors]
    rw [if_neg]
    intro hc
    exact h ⟨n, rfl, hc⟩

/-- Claim C5 counterexample: the query parameter limit set to the empty
string is a present, non-numeric value (parseInt gives NaN on it), yet
validation succeeds with limit 10 instead of failing with an error
naming limit: the JavaScript truthiness test in the transform treats
the empty string like an absent value. -/
theorem listQuery_empty_limit_counterexample :
    parseIntJs "" = none ∧
    validateListQuery ⟨none, none, some "", none⟩
      = Except.ok ⟨none, none, 10, 0⟩ := by
  constructor
  · rfl
  · decide

/-- Claim C5 (amended): an absent or empty limit yields 10 and an
absent or empty offset yields 0; a present non-empty limit string is
converted by parseInt and must yield an integer in 1..100, a present
non-empty offset string a nonnegative integer; an unparsable or
out-of-range value fails validation naming that field; on success
limit and offset are always populated with the converted integers. -/
theorem listTasksQuerySchema_spec (r : ListTasksRaw) :
    ((∃ q, validateListQuery r = Except.ok q) ↔
      ((∀ s, r.status = some s →
          (s = "pending" ∨ s = "in_progress" ∨ s = "completed")) ∧
       (∃ n, limitVal r.limit = some n ∧ 0 < n ∧ n ≤ 100) ∧
       (∃ n, offsetVal r.offset = some n ∧ 0 ≤ n))) ∧
    (∀ q, validateListQuery r = Except.ok q →
      ((r.limit = none ∨ r.limit = some "") → q.limit = 10) ∧
      ((r.offset = none ∨ r.offset = some "") → q.offset = 0) ∧
      limitVal r.limit = some (q.limit : Int) ∧
      offsetVal r.offset = some (q.offset : Int)) ∧
    (∀ es, validateListQuery r = Except.error es →
      ((¬ ∃ n, limitVal r.limit = some n ∧ 0 < n ∧ n ≤ 100) →
        ∃ fe, fe ∈ es ∧ fe.field = "limit") ∧
      ((¬ ∃ n, offsetVal r.offset = some n ∧ 0 ≤ n) →
        ∃ fe, fe ∈ es ∧ fe.field = "offset")) := by
  unfold validateListQuery
  by_cases hnil : statusErrors r.status ++ limitErrors (limitVal r.limit)
      ++ offsetErrors (offsetVal r.offset) = []
  · rw [if_pos hnil]
    rw [List.append_eq_nil, List.append_eq_nil] at hnil
    rcases hnil with ⟨⟨hs0, hl0⟩, ho0⟩
    have hstat := (statusErrors_eq_nil r.status).mp hs0
    rcases (limitErrors_eq_nil _).mp hl0 with ⟨nl, hnl, hnl1, hnl2⟩
    rcases (offsetErrors_eq_nil _).mp ho0 with ⟨no, hno, hno1⟩
    refine ⟨?_, ?_, by simp⟩
    · simp only [Except.ok.injEq, exists_eq']
      constructor
      · intro _
        exact ⟨fun s hs => (parseStatus_isSome_iff s).mp (hstat s hs),
          ⟨nl, hnl, hnl1, hnl2⟩, ⟨no, hno, hno1⟩⟩
      · intro _
        trivial
    · intro q hq
      rw [Except.ok.injEq] at hq
      subst hq
      refine ⟨?_, ?_, ?_, ?_⟩
      · intro hdef
        have h10 : limitVal r.limit = some 10 := by
          rcases hdef with h | h <;> simp [limitVal, h]
        show ((limitVal r.limit).getD 0).toNat = 10
        rw [h10]
        rfl
      · intro hdef
        have h0 : offsetVal r.offset = some 0 := by
          rcases hdef with h | h <;> simp [offsetVal, h]
        show ((offsetVal r.offset).getD 0).toNat = 0
        rw [h0]
        rfl
      · show limitVal r.limit = some ((((limitVal r.limit).getD 0).toNat : Nat) : Int)
        rw [hnl]
        simp [Int.toNat_of_nonneg (le_of_lt hnl1)]
      · show offsetVal r.offset = some ((((offsetVal r.offset).getD 0).toNat : Nat) : Int)
        rw [hno]
        simp [Int.toNat_of_nonneg hno1]
  · rw [if_neg hnil]
    refine ⟨?_, by simp, ?_⟩
    · have hno2 : ¬ ∃ q, (Except.error (α := ListTasksQuery)
          (statusErrors r.status ++ limitErrors (limitVal r.limit)
            ++ offsetErrors (offsetVal r.offset)) = Except.ok q) := by
        simp
      constructor
      · intro h
        exact absurd h hno2
      · rintro ⟨hstat, ⟨nl, hnl, hnl1, hnl2⟩, ⟨no, hno, hno1⟩⟩
        exfalso
        apply hnil
        rw [List.append_eq_nil, List.append_eq_nil]
        refine ⟨⟨?_, ?_⟩, ?_⟩
        · rw [statusErrors_eq_nil]
          intro s hs
          exact (parseStatus_isSome_iff s).mpr (hstat s hs)
        · rw [limitErrors_eq_nil]
          exact ⟨nl, hnl, hnl1, hnl2⟩
        · rw [offsetErrors_eq_nil]
          exact ⟨no, hno, hno1⟩
    · intro es hes
      rw [Except.error.injEq] at hes
      subst hes
      constructor
      · intro hbad
        rw [limitErrors_nonpass _ hbad]
        exact ⟨⟨"limit", "Limit must be between 1 and 100"⟩,
          List.mem_append_left _ (List.mem_append_right _ (by simp)), rfl⟩
      · intro hbad
        rw [offsetErrors_nonpass _ hbad]
        exact ⟨⟨"offset", "Offset must be non-negative"⟩,
          List.mem_append_right _ (by simp), rfl⟩

/-- Claim C6: the error translator is total and dispatches in priority
order: Zod errors to 400 with dot-joined field details, Prisma P2025 to
404, Prisma P2002 to 409, everything else (other Prisma codes
included) to 500 whose message is populated only in development mode;
every branch emits success false. -/
theorem errorHandler_spec (e : AppError) (dev : Bool) :
    (errorHandler e dev).body.success = false ∧
    (∀ issues, e = AppError.zodError issues →
      errorHandler e dev = ⟨400, ⟨false, "Validation error",
        some (issues.map (fun i => ⟨joinDot i.path, i.message⟩)), none⟩⟩) ∧
    (∀ msg, e = AppError.prismaKnownError "P2025" msg →
      errorHandler e dev = ⟨404, ⟨false, "Resource not found", none, none⟩⟩) ∧
    (∀ msg, e = AppError.prismaKnownError "P2002" msg →
      errorHandler e dev = ⟨409, ⟨false, "Resource already exists", none, none⟩⟩) ∧
    (∀ code msg, e = AppError.prismaKnownError code msg →
      code ≠ "P2025" → code ≠ "P2002" →
      errorHandler e dev = ⟨500, ⟨false, "Internal server error", none,
        if dev then some msg else none⟩⟩) ∧
    (∀ msg, e = AppError.otherError msg →
      errorHandler e dev = ⟨500, ⟨false, "Internal server error", none,
        if dev then some msg else none⟩⟩) := by
  cases e with
  | zodError issues =>
    refine ⟨rfl, ?_, ?_, ?_, ?_, ?_⟩
    · intro issues' h
      rw [AppError.zodError.injEq] at h
      subst h
      rfl
    · intro msg h
      exact absurd h (by simp)
    · intro msg h
      exact absurd h (by simp)
    · intro code msg h
      exact absurd h (by simp)
    · intro msg h
      exact absurd h (by simp)
  | prismaKnownError code msg =>
    refine ⟨?_, ?_, ?_, ?_, ?_, ?_⟩
    · unfold errorHandler
      dsimp only
      split_ifs <;> rfl
    · intro issues h
      exact absurd h (by simp)
    · intro msg' h
      rw [AppError.prismaKnownError.injEq] at h
      rcases h with ⟨hc, hm⟩
      subst hc
      subst hm
      simp [errorHandler]
    · intro msg' h
      rw [AppError.prismaKnownError.injEq] at h
      rcases h with ⟨hc, hm⟩
      subst hc
      subst hm
      simp [errorHandler]
    · intro code' msg' h h1 h2
      rw [AppError.prismaKnownError.injEq] at h
      rcases h with ⟨hc, hm⟩
      subst hc
      subst hm
      simp [errorHandler, h1, h2]
    · intro msg' h
      exact absurd h (by simp)
  | otherError msg =>
    refine ⟨rfl, ?_, ?_, ?_, ?_, ?_⟩
    · intro issues h
      exact absurd h (by simp)
    · intro msg' h
      exact absurd h (by simp)
    · intro msg' h
      exact absurd h (by simp)
    · intro code' msg' h
      exact absurd h (by simp)
    · intro msg' h
      rw [AppError.otherError.injEq] at h
      subst h
      rfl

/-- Claim C9 counterexample: the id path parameter "12abc" is not an
integer numeral, yet all three handlers pass the gate and invoke the
Task Service with 12, because parseInt keeps the leading digits. -/
theorem id_gate_counterexample :
    isIntegerNumeral "12abc" = false ∧
    getByIdGate "12abc" = GateResult.proceed 12 ∧
    updateGate "12abc" = GateResult.proceed 12 ∧
    deleteGate "12abc" = GateResult.proceed 12 := by
  refine ⟨by decide, by decide, by decide, by decide⟩

/-- Claim C9 (amended): each of the getById, update and delete handlers
responds 400 with the invalid-id body, without reaching the Task
Service, exactly when parseInt on the id path parameter returns NaN;
otherwise the Task Service is invoked with the parsed integer, which
parseInt also produces from non-integer strings with an integer prefix
such as "12abc". -/
theorem id_gate_spec (s : String) :
    invalidIdResponse = ⟨400, ⟨false, "Invalid task ID", none, none⟩⟩ ∧
    (parseIntJs s = none →
      getByIdGate s = GateResult.earlyResponse invalidIdResponse ∧
      updateGate s = GateResult.earlyResponse invalidIdResponse ∧
      deleteGate s = GateResult.earlyResponse invalidIdResponse) ∧
    (∀ n, parseIntJs s = some n →
      getByIdGate s = GateResult.proceed n ∧
      updateGate s = GateResult.proceed n ∧
      deleteGate s = GateResult.proceed n) := by
  refine ⟨rfl, ?_, ?_⟩
  · intro h
    exact ⟨by simp [getByIdGate, h], by simp [updateGate, h], by simp [deleteGate, h]⟩
  · intro n h
    exact ⟨by simp [getByIdGate, h], by simp [updateGate, h], by simp [deleteGate, h]⟩

/-- Successful create validation determines the output fields from the
raw input: the title is the given string, the description is passed
through, the status is the decoded value defaulted to pending. -/
theorem validateCreate_ok_inv (r : CreateTaskRaw) (d : CreateTaskInput)
    (hv : validateCreate r = Except.ok d) :
    r.title = some d.title ∧ r.description = d.description ∧
      d.status = (r.status.bind parseStatus).getD TaskStatus.pending := by
  unfold validateCreate at hv
  cases ht : r.title with
  | none =>
    rw [ht] at hv
    exact absurd hv (by simp)
  | some t =>
    rw [ht] at hv
    dsimp only at hv
    split_ifs at hv
    rw [Except.ok.injEq] at hv
    subst hv
    exact ⟨rfl, rfl, rfl⟩

/-- Claim C8: for every valid create payload, createTask followed by
getTaskById on the created id yields the created row, whose title,
description and status equal the validated input, the status being
pending when it was omitted from the raw payload. -/
theorem create_then_get_roundtrip (r : CreateTaskRaw) (d : CreateTaskInput)
    (now : Nat) (st : Store)
    (hv : validateCreate r = Except.ok d)
    (hid : ∀ t ∈ st.tasks, t.id < st.nextId) :
    getTaskById (createTask d now st).1.id (createTask d now st).2
      = some (createTask d now st).1 ∧
    r.title = some d.title ∧
    r.description = d.description ∧
    (createTask d now st).1.title = d.title ∧
    (createTask d now st).1.description = d.description ∧
    (createTask d now st).1.status = d.status ∧
    (r.status = none → d.status = TaskStatus.pending) := by
  rcases validateCreate_ok_inv r d hv with ⟨h1, h2, h3⟩
  refine ⟨?_, h1, h2, rfl, rfl, rfl, ?_⟩
  · show ((st.tasks ++ [(⟨st.nextId, d.title, d.description, d.status, now, now⟩ : Task)]).find?
      (fun t => t.id == st.nextId)) = some ⟨st.nextId, d.title, d.description, d.status, now, now⟩
    apply find?_concat_of_none
    · intro a ha
      have := hid a ha
      simp only [beq_eq_false_iff_ne, ne_eq]
      omega
    · simp
  · intro h0
    rw [h0] at h3
    simpa using h3

/-- Witness discharging the hypotheses of the C8 theorem on the empty
store with a minimal valid payload. -/
theorem create_then_get_roundtrip_witness :
    (getTaskById (createTask ⟨"a", none, TaskStatus.pending⟩ 0 ⟨[], 1⟩).1.id
        (createTask ⟨"a", none, TaskStatus.pending⟩ 0 ⟨[], 1⟩).2
      = some (createTask ⟨"a", none, TaskStatus.pending⟩ 0 ⟨[], 1⟩).1) ∧
    (some "a" : Option String) = some "a" ∧
    (none : Option String) = none ∧
    (createTask ⟨"a", none, TaskStatus.pending⟩ 0 ⟨[], 1⟩).1.title = "a" ∧
    (createTask ⟨"a", none, TaskStatus.pending⟩ 0 ⟨[], 1⟩).1.description = none ∧
    (createTask ⟨"a", none, TaskStatus.pending⟩ 0 ⟨[], 1⟩).1.status = TaskStatus.pending ∧
    ((⟨some "a", none, none⟩ : CreateTaskRaw).status = none →
      TaskStatus.pending = TaskStatus.pending) :=
  create_then_get_roundtrip ⟨some "a", none, none⟩ ⟨"a", none, TaskStatus.pending⟩
    0 ⟨[], 1⟩ (by decide) (by simp)

end TaskApi
